import Mathlib

/-!
Shallow embedding of `django-mongotools` (mongotools/forms/__init__.py,
mongotools/forms/fields.py, mongotools/forms/utils.py,
mongotools/views/__init__.py) together with theorems settling the claims
about its specification.

Modelling conventions:
* Python strings are lists of characters (`Str`).
* Python `None`-able attributes are `Option`s; Python truthiness of a
  string/list option is "present and non-empty".
* Stateful code is modelled by explicit state passing; observable side
  effects (file-field commits and database writes) are collected in an
  explicit `Effect` trace.
* Exceptions are modelled with `Except`; distinct raise sites get distinct
  `PyErr` constructors (in Python several of them share the `ValueError`
  class, distinguished only by message).
-/

namespace Mongotools

/-- Python strings, modelled as lists of characters. -/
abbrev Str := List Char

/-- Field names. -/
abbrev FName := Str

/-- Truthiness of an optional string (`None` and `""` are falsy). -/
def truthyStr : Option Str → Bool
  | some s => !s.isEmpty
  | none => false

/-- Truthiness of an optional natural (`None` and `0` are falsy). -/
def truthyNat : Option Nat → Bool
  | some n => n != 0
  | none => false

/-! ## Uploaded files and GridFS storage (the external file-storage model) -/

/-- A `django.core.files.uploadedfile.UploadedFile`: a named stream with a
declared content type and a current read position. -/
structure UploadedFile where
  name : Str
  content : Str
  content_type : Str
  pos : Nat
deriving DecidableEq

/-- Reading the stream returns the bytes from the current position on. -/
def UploadedFile.read (f : UploadedFile) : Str := f.content.drop f.pos

/-- `file.file.seek(0)` rewinds the stream. -/
def UploadedFile.seek0 (f : UploadedFile) : UploadedFile := { f with pos := 0 }

/-- A file stored in GridFS: its content, declared content type and name. -/
structure StoredFile where
  content : Str
  contentType : Str
  filename : Str
deriving DecidableEq

/-- A mongoengine `GridFSProxy`: the set of filenames present in the
underlying storage (queried by `fs.exists`) and the file currently held by
this proxy (if any). -/
structure GridFSProxy where
  fsFiles : List Str
  stored : Option StoredFile
deriving DecidableEq

/-- `proxy.delete()`: remove the currently stored file from storage. -/
def GridFSProxy.delete (p : GridFSProxy) : GridFSProxy :=
  match p.stored with
  | none => p
  | some sf => { fsFiles := p.fsFiles.erase sf.filename, stored := none }

/-- `proxy.put(file, ...)`: store new content under `fname`. -/
def GridFSProxy.put (p : GridFSProxy) (content ctype fname : Str) : GridFSProxy :=
  { fsFiles := fname :: p.fsFiles, stored := some ⟨content, ctype, fname⟩ }

/-- `proxy.replace(file, content_type=..., filename=...)`: mongoengine
implements replace as delete-then-put; the new content is read from the
stream's current position. -/
def GridFSProxy.replace (p : GridFSProxy) (file : UploadedFile) (ctype fname : Str) :
    GridFSProxy :=
  (p.delete).put file.read ctype fname

/-! ## utils.py: filename collision resolution -/

/-- `str.rfind(c)`: index of the last occurrence of `c`, if any. -/
def rfindIdx : Str → Char → Option Nat
  | [], _ => none
  | x :: xs, c =>
    match rfindIdx xs c with
    | some i => some (i + 1)
    | none => if x = c then some 0 else none

/-- `os.path.splitext` (posixpath): split off the extension at the last dot
that comes after the last path separator, unless every character of the
basename before that dot is itself a dot. -/
def splitext (p : Str) : Str × Str :=
  let sepIndex := rfindIdx p '/'
  match rfindIdx p '.' with
  | none => (p, [])
  | some dotIndex =>
    if sepIndex.elim true (fun s => decide (s < dotIndex)) then
      let filenameIndex := match sepIndex with | none => 0 | some s => s + 1
      if ((p.drop filenameIndex).take (dotIndex - filenameIndex)).any (fun ch => ch != '.') then
        (p.take dotIndex, p.drop dotIndex)
      else (p, [])
    else (p, [])

/-- Decimal digit characters. -/
def digitChar : Nat → Char
  | 0 => '0' | 1 => '1' | 2 => '2' | 3 => '3' | 4 => '4'
  | 5 => '5' | 6 => '6' | 7 => '7' | 8 => '8' | 9 => '9'
  | _ => '?'

/-- Decimal digits of a positive number, most significant first, written
with explicit fuel so that the definition is structural. -/
def toDecimalAux : Nat → Nat → Str
  | 0, _ => []
  | _ + 1, 0 => []
  | fuel + 1, n + 1 => toDecimalAux fuel ((n + 1) / 10) ++ [digitChar ((n + 1) % 10)]

/-- The decimal string a Python `"%s" % k` produces for a natural number. -/
def toDecimal (n : Nat) : Str :=
  match n with
  | 0 => ['0']
  | n + 1 => toDecimalAux (n + 1) (n + 1)

/-- One candidate name `"%s_%s%s" % (file_root, count.next(), file_ext)`. -/
def candidate (file_root file_ext : Str) (k : Nat) : Str :=
  file_root ++ '_' :: (toDecimal k ++ file_ext)

/-- The `while fs.exists(filename=name)` loop of `_get_unique_filename`,
with explicit fuel (the loop terminates because storage is finite and the
candidate names are pairwise distinct; `fs.length + 1` iterations always
suffice, as proved below). -/
def uniqueAux (fsFiles : List Str) (file_root file_ext : Str) :
    Str → Nat → Nat → Str
  | name, _, 0 => name
  | name, k, fuel + 1 =>
    if name ∈ fsFiles then
      uniqueAux fsFiles file_root file_ext (candidate file_root file_ext k) (k + 1) fuel
    else name

/-- `_get_unique_filename(fs, name)`: append `_1`, `_2`, ... before the
extension of `name` until a filename not present in storage is found. -/
def _get_unique_filename (fsFiles : List Str) (name : Str) : Str :=
  let pair := splitext name
  uniqueAux fsFiles pair.1 pair.2 name 1 (fsFiles.length + 1)

/-- `save_file(proxy, file)`: pick a collision-free filename, rewind the
upload stream, and replace the proxy's stored content, preserving the
upload's declared content type. -/
def save_file (proxy : GridFSProxy) (file : UploadedFile) : GridFSProxy :=
  let filename := _get_unique_filename proxy.fsFiles file.name
  let file := file.seek0
  proxy.replace file file.content_type filename

/-! ## Cleaned values -/

/-- A cleaned-data value.  `vDoc`/`vDocList` model embedded documents (and
lists thereof); for them only the `_file_field_data` attribute created by
sub-forms is relevant to the code being verified, so that is what the
constructors carry.  `vProxy` is the `GridFSProxy` a document holds for a
file field.  `vData` is an opaque ordinary value. -/
inductive Value where
  | vNone
  | vFalse
  | vUpload (f : UploadedFile)
  | vData (n : Nat)
  | vProxy (p : GridFSProxy)
  | vDoc (ffd : Option (List (FName × Value)))
  | vDocList (ffds : List (Option (List (FName × Value))))

/-- `save_file_field(value, instance, field_name)` acting on the proxy
`instance[field_name]`: the sentinel `False` deletes the stored file, an
`UploadedFile` replaces it via `save_file`, anything else is a no-op. -/
def save_file_field (value : Value) (proxy : GridFSProxy) : GridFSProxy :=
  match value with
  | .vFalse => proxy.delete
  | .vUpload f => save_file proxy f
  | _ => proxy

/-- Observable side effects of a save: file-field commits (delete/replace)
and the write of the document to database storage. -/
inductive Effect where
  | fileDelete (name : FName)
  | fileReplace (name : FName) (f : UploadedFile)
  | storageWrite
deriving DecidableEq

/-- The trace events one `save_file_field(value, instance, field_name)`
call contributes. -/
def file_field_effects (value : Value) (name : FName) : List Effect :=
  match value with
  | .vFalse => [.fileDelete name]
  | .vUpload f => [.fileReplace name f]
  | _ => []

/-! ## fields.py: the form-field generator -/

/-- The mongoengine field kinds that have a registered generator
(`generate_<lowercased class name>` on `DocumentFormFieldGenerator`). -/
inductive SchemaKind where
  | stringField
  | emailField
  | urlField
  | intField
  | floatField
  | decimalField
  | booleanField
  | datetimeField
  | referenceField
  | listField
  | fileField
  | imageField
deriving DecidableEq

/-- A mongoengine schema field, restricted to the attributes the generator
reads.  `ref_id_is_int` records, for reference fields, whether the target
document's id field is a `SequenceField`/`IntField`; `list_inner_choices`
and `list_inner_is_reference` describe `field.field` for list fields. -/
structure SchemaField where
  kind : SchemaKind
  required : Bool
  verbose_name : Option Str
  name : Option Str
  help_text : Option Str
  choices : List (Str × Str)
  default : Value
  max_length : Option Nat
  min_length : Option Nat
  min_value : Option Int
  max_value : Option Int
  regex : Option Str
  ref_id_is_int : Bool
  list_inner_choices : List (Str × Str)
  list_inner_is_reference : Bool

/-- The Django form-field classes the generator can produce. -/
inductive FormFieldClass where
  | mongoCharField
  | regexField
  | typedChoiceField
  | emailField
  | urlField
  | integerField
  | floatField
  | decimalField
  | booleanField
  | dateTimeField
  | referenceFormField
  | multipleChoiceField
  | documentMultipleChoiceField
  | fileFormField
  | imageFormField
deriving DecidableEq

/-- The coercion callables passed as `coerce=`. -/
inductive CoerceKind where
  | coerceString
  | coerceInt
  | coerceBool
  | coerceObjectId
deriving DecidableEq

/-- The non-default widgets the generator passes. -/
inductive WidgetKind where
  | textarea
  | checkboxSelectMultiple
  | clearableGridFSFileInput
deriving DecidableEq

/-- A generated Django form field.  Field defaults mirror
`django.forms.fields.Field.__init__` (label `None`, initial `None`,
help text `''` when `None` is passed). -/
structure FormField where
  fclass : FormFieldClass
  required : Bool := true
  label : Option Str := none
  initial : Value := .vNone
  help_text : Str := []
  choices : List (Str × Str) := []
  max_length : Option Nat := none
  min_length : Option Nat := none
  min_value : Option Int := none
  max_value : Option Int := none
  regex : Option Str := none
  coerce : Option CoerceKind := none
  empty_value_none : Bool := false
  widget : Option WidgetKind := none

/-- `BLANK_CHOICE_DASH = [("", "---------")]`. -/
def BLANK_CHOICE_DASH : List (Str × Str) :=
  [([], ['-','-','-','-','-','-','-','-','-'])]

/-- `get_field_choices(field, include_blank, blank_choice)`. -/
def get_field_choices (field : SchemaField) (include_blank : Bool)
    (blank_choice : List (Str × Str)) : List (Str × Str) :=
  (if include_blank then blank_choice else []) ++ field.choices

/-- `django.utils.text.capfirst`: upper-case the first character. -/
def capfirst : Str → Str
  | [] => []
  | c :: cs => c.toUpper :: cs

/-- `get_field_label`: the capitalized verbose name if truthy, else the
capitalized field name if truthy, else `None`. -/
def get_field_label (field : SchemaField) : Option Str :=
  if truthyStr field.verbose_name then some (capfirst (field.verbose_name.getD []))
  else if truthyStr field.name then some (capfirst (field.name.getD []))
  else none

/-- `get_field_help_text`: the help text if truthy, else `None`. -/
def get_field_help_text (field : SchemaField) : Option Str :=
  if truthyStr field.help_text then field.help_text else none

/-- Django turns a `help_text=None` argument into `''`. -/
def djangoHelp (field : SchemaField) : Str :=
  (get_field_help_text field).getD []

/-- `generate_stringfield`. -/
def generate_stringfield (field : SchemaField) : FormField :=
  let defaults : FormField := {
    fclass := .mongoCharField
    label := get_field_label field
    initial := field.default
    required := field.required
    help_text := djangoHelp field }
  let defaults :=
    if truthyNat field.max_length && field.choices.isEmpty then
      { defaults with max_length := field.max_length }
    else defaults
  let defaults :=
    if field.max_length.isNone && field.choices.isEmpty then
      { defaults with widget := some .textarea }
    else defaults
  if field.regex.isSome then
    { defaults with fclass := .regexField, regex := field.regex }
  else if !field.choices.isEmpty then
    let include_blank := !field.required
    let defaults := { defaults with
      fclass := .typedChoiceField
      choices := get_field_choices field include_blank BLANK_CHOICE_DASH
      coerce := some .coerceString }
    if !field.required then { defaults with empty_value_none := true } else defaults
  else defaults

/-- `generate_emailfield`. -/
def generate_emailfield (field : SchemaField) : FormField :=
  { fclass := .emailField
    required := field.required
    min_length := field.min_length
    max_length := field.max_length
    initial := field.default
    label := get_field_label field
    help_text := djangoHelp field }

/-- `generate_urlfield`. -/
def generate_urlfield (field : SchemaField) : FormField :=
  { fclass := .urlField
    required := field.required
    min_length := field.min_length
    max_length := field.max_length
    initial := field.default
    label := get_field_label field
    help_text := djangoHelp field }

/-- `generate_intfield`: note that in the choices branch
`get_field_choices` is called without `include_blank`, whose default is
`True`. -/
def generate_intfield (field : SchemaField) : FormField :=
  if !field.choices.isEmpty then
    { fclass := .typedChoiceField
      coerce := some .coerceInt
      empty_value_none := true
      required := field.required
      initial := field.default
      label := get_field_label field
      choices := get_field_choices field true BLANK_CHOICE_DASH
      help_text := djangoHelp field }
  else
    { fclass := .integerField
      required := field.required
      min_value := field.min_value
      max_value := field.max_value
      initial := field.default
      label := get_field_label field
      help_text := djangoHelp field }

/-- `generate_floatfield`. -/
def generate_floatfield (field : SchemaField) : FormField :=
  { fclass := .floatField
    label := get_field_label field
    initial := field.default
    required := field.required
    min_value := field.min_value
    max_value := field.max_value
    help_text := djangoHelp field }

/-- `generate_decimalfield`. -/
def generate_decimalfield (field : SchemaField) : FormField :=
  { fclass := .decimalField
    label := get_field_label field
    initial := field.default
    required := field.required
    min_value := field.min_value
    max_value := field.max_value
    help_text := djangoHelp field }

/-- `generate_booleanfield`: like `generate_intfield`, the choices branch
uses the default `include_blank=True`. -/
def generate_booleanfield (field : SchemaField) : FormField :=
  if !field.choices.isEmpty then
    { fclass := .typedChoiceField
      coerce := some .coerceBool
      empty_value_none := true
      required := field.required
      initial := field.default
      label := get_field_label field
      choices := get_field_choices field true BLANK_CHOICE_DASH
      help_text := djangoHelp field }
  else
    { fclass := .booleanField
      required := field.required
      initial := field.default
      label := get_field_label field
      help_text := djangoHelp field }

/-- `generate_datetimefield`: its `defaults` dict only carries `required`,
`initial` and `label` — no `help_text`. -/
def generate_datetimefield (field : SchemaField) : FormField :=
  { fclass := .dateTimeField
    required := field.required
    initial := field.default
    label := get_field_label field }

/-- `generate_referencefield`: `coerce` is `int` when the referenced
document's id field is a `SequenceField`/`IntField`, else the
`ObjectId` default of `ReferenceField.__init__`. -/
def generate_referencefield (field : SchemaField) : FormField :=
  { fclass := .referenceFormField
    label := get_field_label field
    help_text := djangoHelp field
    required := field.required
    coerce := some (if field.ref_id_is_int then .coerceInt else .coerceObjectId) }

/-- `generate_listfield`: `None` models the `NotImplementedError` for an
unsupported inner-field configuration. -/
def generate_listfield (field : SchemaField) : Option FormField :=
  if !field.list_inner_choices.isEmpty then
    some { fclass := .multipleChoiceField
           choices := field.list_inner_choices
           required := field.required
           label := get_field_label field
           help_text := djangoHelp field
           widget := some .checkboxSelectMultiple }
  else if field.list_inner_is_reference then
    some { fclass := .documentMultipleChoiceField
           label := get_field_label field
           help_text := djangoHelp field
           required := field.required }
  else none

/-- `generate_filefield`. -/
def generate_filefield (field : SchemaField) : FormField :=
  { fclass := .fileFormField
    required := field.required
    label := get_field_label field
    initial := field.default
    help_text := djangoHelp field
    widget := some .clearableGridFSFileInput }

/-- `generate_imagefield`. -/
def generate_imagefield (field : SchemaField) : FormField :=
  { fclass := .imageFormField
    required := field.required
    label := get_field_label field
    initial := field.default
    help_text := djangoHelp field
    widget := some .clearableGridFSFileInput }

/-- `DocumentFormFieldGenerator.generate(field)`: dispatch on the field's
kind (the Python code looks up `generate_<lowercased class name>`, falling
back to base classes; the kinds enumerated in `SchemaKind` are exactly
those with a registered generator).  `none` models `NotImplementedError`
escaping from a kind-specific generator. -/
def generate (field : SchemaField) : Option FormField :=
  match field.kind with
  | .stringField => some (generate_stringfield field)
  | .emailField => some (generate_emailfield field)
  | .urlField => some (generate_urlfield field)
  | .intField => some (generate_intfield field)
  | .floatField => some (generate_floatfield field)
  | .decimalField => some (generate_decimalfield field)
  | .booleanField => some (generate_booleanfield field)
  | .datetimeField => some (generate_datetimefield field)
  | .referenceField => some (generate_referencefield field)
  | .listField => generate_listfield field
  | .fileField => some (generate_filefield field)
  | .imageField => some (generate_imagefield field)

/-! ## forms/__init__.py: document construction and saving -/

/-- The kinds of document fields `construct_instance`/`save_files`
distinguish by `isinstance` checks: `FileField`, `EmbeddedDocumentField`,
`ListField` whose inner field is an `EmbeddedDocumentField`, and
everything else. -/
inductive FieldKind where
  | fileField
  | embeddedDocumentField
  | listEmbeddedField
  | otherField
deriving DecidableEq

/-- The data the `save_files` closure created inside `save_instance`
captures: the form's cleaned data and the `fields`/`exclude` options. -/
structure PendingSave where
  cleaned_data : List (FName × Value)
  fields : Option (List FName)
  exclude : Option (List FName)

/-- A document (or embedded document) instance: its schema `_fields`, its
current field values, the `_file_field_data` attribute (when set), whether
it has a `save` method (documents do, embedded documents don't),
`pendingSave` models a `save` method wrapped by the `commit=False` branch
of `save_instance`, `saveFilesFn` the `save_files` attribute assigned to
save-less instances, and `notUniqueOnSave` is the storage oracle: `some
msg` means the next database write raises `NotUniqueError(msg)`. -/
structure Instance where
  _fields : List (FName × FieldKind)
  vals : FName → Value
  _file_field_data : Option (List (FName × Value))
  hasSave : Bool
  pendingSave : Option PendingSave
  saveFilesFn : Option PendingSave
  notUniqueOnSave : Option Str

/-- The part of a bound form `save_instance` reads. -/
structure Form where
  cleaned_data : List (FName × Value)
  errors : List (FName × List Str)

/-- `field_name in cleaned_data` and the skip conditions of the
`construct_instance` loop: `fields is not None and field_name not in
fields` and `exclude and field_name in exclude`. -/
def inFieldsOpt : Option (List FName) → FName → Bool
  | none, _ => true
  | some fs, n => fs.contains n

/-- Truthiness-guarded exclusion test (`exclude and field_name in exclude`). -/
def excludedOpt : Option (List FName) → FName → Bool
  | none, _ => false
  | some ex, n => !ex.isEmpty && ex.contains n

/-- A field of the instance survives the three `continue` guards of the
`construct_instance` loop. -/
def keepField (cleaned_data : List (FName × Value)) (fields exclude : Option (List FName))
    (n : FName) : Bool :=
  (cleaned_data.lookup n).isSome && inFieldsOpt fields n && !excludedOpt exclude n

/-- One iteration of the `construct_instance` loop, acting on the value
assignment built so far: a non-file field passing the guards is set to its
cleaned value. -/
def assignStep (cleaned_data : List (FName × Value)) (fields exclude : Option (List FName))
    (acc : FName → Value) (nf : FName × FieldKind) : FName → Value :=
  if keepField cleaned_data fields exclude nf.1 && decide (nf.2 ≠ FieldKind.fileField) then
    fun n => if n = nf.1 then (cleaned_data.lookup nf.1).getD .vNone else acc n
  else acc

/-- `construct_instance(form, instance, fields, exclude)`: copy cleaned
values into the instance for every field passing the guards, except file
fields, which are collected into `_file_field_data` instead (only when at
least one file field passed the guards). -/
def construct_instance (form : Form) (inst : Instance)
    (fields exclude : Option (List FName)) : Instance :=
  let cleaned_data := form.cleaned_data
  let keep := keepField cleaned_data fields exclude
  let newVals := inst._fields.foldl (assignStep cleaned_data fields exclude) inst.vals
  let file_field_list := inst._fields.filter
    (fun nf => keep nf.1 && decide (nf.2 = FieldKind.fileField))
  { inst with
    vals := newVals
    _file_field_data :=
      if file_field_list.isEmpty then inst._file_field_data
      else some (file_field_list.map fun nf =>
        (nf.1, (cleaned_data.lookup nf.1).getD .vNone)) }

/-- `process_file_field_data(doc)`: commit every entry of the document's
`_file_field_data`, if the attribute is present. -/
def process_file_field_data (ffd : Option (List (FName × Value))) : List Effect :=
  match ffd with
  | none => []
  | some l => l.flatMap fun nv => file_field_effects nv.2 nv.1

/-- The trace of the `save_files` closure of `save_instance`: walk the
instance's fields (honoring `fields`/`exclude`), committing cleaned values
of file fields and the deferred `_file_field_data` of embedded documents
and lists of embedded documents. -/
def save_files (cleaned_data : List (FName × Value)) (inst : Instance)
    (fields exclude : Option (List FName)) : List Effect :=
  inst._fields.flatMap fun nf =>
    if !inFieldsOpt fields nf.1 then []
    else if excludedOpt exclude nf.1 then []
    else match nf.2 with
      | .fileField => file_field_effects ((cleaned_data.lookup nf.1).getD .vNone) nf.1
      | .embeddedDocumentField =>
        match inst.vals nf.1 with
        | .vDoc ffd => process_file_field_data ffd
        | _ => []
      | .listEmbeddedField =>
        match inst.vals nf.1 with
        | .vDocList ffds => ffds.flatMap process_file_field_data
        | _ => []
      | .otherField => []

/-- Exceptions.  The first four are raised as `ValueError`,
`NotImplementedError` (or, while formatting its message, an attribute
error) in Python; distinct constructors record the distinct raise sites. -/
inductive PyErr where
  | validationError
  | parentMissingError
  | fieldUndefinedError
  | unsupportedFieldError
  | attributeError
  | keyError
  | notUniqueError (msg : Str)

/-- Calling `instance.save()`: if the `commit=False` branch of
`save_instance` wrapped it, the wrapper first runs the captured
`save_files`, restores the original method (so the files are committed
exactly once), then performs the database write, which succeeds or raises
`NotUniqueError` according to the storage oracle. -/
def Instance.callSave (inst : Instance) : List Effect × Except PyErr Instance :=
  match inst.pendingSave with
  | some pd =>
    let es := save_files pd.cleaned_data inst pd.fields pd.exclude
    let inst2 := { inst with pendingSave := none }
    match inst2.notUniqueOnSave with
    | some m => (es, .error (.notUniqueError m))
    | none => (es ++ [.storageWrite], .ok inst2)
  | none =>
    match inst.notUniqueOnSave with
    | some m => ([], .error (.notUniqueError m))
    | none => ([.storageWrite], .ok inst)

/-- `save_instance(form, instance, fields, exclude, commit, construct)`:
construct the instance if requested; raise `ValueError` when the form has
errors; give save-less instances a `save_files` attribute and return; on
`commit=True` run `save_files()` and then `instance.save(validate=False)`;
on `commit=False` wrap `instance.save` so the files are saved right before
the next explicit save. -/
def save_instance (form : Form) (inst : Instance)
    (fields exclude : Option (List FName)) (commit construct : Bool) :
    List Effect × Except PyErr Instance :=
  let inst := if construct then construct_instance form inst fields exclude else inst
  if !form.errors.isEmpty then ([], .error .validationError)
  else if !inst.hasSave then
    ([], .ok { inst with saveFilesFn := some ⟨form.cleaned_data, fields, exclude⟩ })
  else if commit then
    let es := save_files form.cleaned_data inst fields exclude
    let step := inst.callSave
    (es ++ step.1, step.2)
  else
    ([], .ok { inst with pendingSave := some ⟨form.cleaned_data, fields, exclude⟩ })

/-- `NON_FIELD_ERRORS = '__all__'`. -/
def NON_FIELD_ERRORS : FName := ['_','_','a','l','l','_','_']

/-- `errors.setdefault(k, error_class()).extend(v)` on an error mapping. -/
def extendErrors (errors : List (FName × List Str)) (k : FName) (msgs : List Str) :
    List (FName × List Str) :=
  if (errors.lookup k).isSome then
    errors.map fun km => if km.1 = k then (km.1, km.2 ++ msgs) else km
  else errors ++ [(k, msgs)]

/-- `BaseDocumentForm._update_errors(message_dict)`: extend per-field error
lists (dropping the offending entries from `cleaned_data`), then the
non-field bucket. -/
def _update_errors (errors : List (FName × List Str)) (cleaned_data : List (FName × Value))
    (message_dict : List (FName × List Str)) :
    List (FName × List Str) × List (FName × Value) :=
  let step := message_dict.foldl
    (fun acc km =>
      if km.1 ≠ NON_FIELD_ERRORS then
        (extendErrors acc.1 km.1 km.2, acc.2.filter fun nv => nv.1 ≠ km.1)
      else acc)
    (errors, cleaned_data)
  match message_dict.lookup NON_FIELD_ERRORS with
  | some msgs => (extendErrors step.1 NON_FIELD_ERRORS msgs, step.2)
  | none => step

/-- A bound `BaseDocumentForm`: the form data plus its document instance
and the `Meta` options `save` passes on. -/
structure DocForm extends Form where
  instance_ : Instance
  optsFields : Option (List FName)
  optsExclude : Option (List FName)

/-- `BaseDocumentForm.save(commit)`: delegate to `save_instance`; on
`commit=True` a `NotUniqueError` is caught, recorded via `_update_errors`
under `NON_FIELD_ERRORS`, and `None` is returned instead of an instance. -/
def BaseDocumentForm_save (f : DocForm) (commit : Bool) :
    List Effect × Except PyErr (DocForm × Option Instance) :=
  if !commit then
    let step := save_instance f.toForm f.instance_ f.optsFields f.optsExclude commit true
    (step.1, step.2.map fun i => (f, some i))
  else
    let step := save_instance f.toForm f.instance_ f.optsFields f.optsExclude commit true
    match step.2 with
    | .error (.notUniqueError m) =>
      let upd := _update_errors f.errors f.cleaned_data [(NON_FIELD_ERRORS, [m])]
      (step.1, .ok ({ f with errors := upd.1, cleaned_data := upd.2 }, none))
    | .error e => (step.1, .error e)
    | .ok i => (step.1, .ok (f, some i))

/-! ## views/__init__.py: the form-valid path of `MongoFormMixin` -/

/-- The outcome of `MongoFormMixin.form_valid`: either the generic
`form_invalid` re-display path or the generic success path (redirect). -/
inductive ViewOutcome where
  | formInvalid
  | formValidSuccess
deriving DecidableEq

/-- `MongoFormMixin.form_valid(form)`: `instance = form.save()`; a `None`
result means `form_invalid`, otherwise the instance is adopted as
`self.object` and the success path is taken. -/
def MongoFormMixin_form_valid (f : DocForm) :
    List Effect × Except PyErr ViewOutcome :=
  let step := BaseDocumentForm_save f true
  match step.2 with
  | .error e => (step.1, .error e)
  | .ok (_, none) => (step.1, .ok .formInvalid)
  | .ok (_, some _) => (step.1, .ok .formValidSuccess)

/-! ## forms/__init__.py: embedded document forms -/

/-- The kinds of parent-document fields `EmbeddedDocumentForm.save`
distinguishes. -/
inductive ParentFieldKind where
  | embeddedDocumentFieldKind
  | listFieldKind
  | otherKind
deriving DecidableEq

/-- The value a parent document holds at an embedded field: a single
embedded instance, a list of embedded instances, or something else. -/
inductive ParentSlot where
  | single (i : Option Instance)
  | listSlot (l : List Instance)
  | otherSlot

/-- A parent document: its `_fields`, its per-field slots, whether it has a
`save` method, and its own `_instance` back-reference when it is itself an
embedded document. -/
inductive ParentDoc where
  | mk (pfields : List (FName × ParentFieldKind)) (slots : FName → ParentSlot)
       (hasSave : Bool) (parent_instance : Option ParentDoc)

/-- Schema fields of a parent document. -/
def ParentDoc.pfields : ParentDoc → List (FName × ParentFieldKind)
  | .mk f _ _ _ => f

/-- Field slots of a parent document. -/
def ParentDoc.slots : ParentDoc → FName → ParentSlot
  | .mk _ s _ _ => s

/-- Whether the parent document has a `save` method. -/
def ParentDoc.hasSave : ParentDoc → Bool
  | .mk _ _ h _ => h

/-- The `_instance` back-reference of the parent document. -/
def ParentDoc.parent_instance : ParentDoc → Option ParentDoc
  | .mk _ _ _ p => p

/-- Overwrite one slot of a parent document. -/
def ParentDoc.updateSlot : ParentDoc → FName → ParentSlot → ParentDoc
  | .mk f s h p, n, sl => .mk f (fun m => if m = n then sl else s m) h p

/-- The `while not hasattr(doc, 'save') and ... doc = doc._instance` walk of
`EmbeddedDocumentForm.save`: climb the `_instance` chain until a document
with a `save` method (or the end of the chain) is reached. -/
def ParentDoc.walkUp : ParentDoc → ParentDoc
  | .mk f s h p =>
    if h then .mk f s h p
    else match p with
      | some up => up.walkUp
      | none => .mk f s h p

/-- A bound `EmbeddedDocumentForm`: form data, its embedded instance, the
(possibly absent) parent document, and the `Meta` options. -/
structure EmbForm extends Form where
  instance_ : Instance
  parent_document : Option ParentDoc
  embedded_field : Option FName
  optsFields : Option (List FName)
  optsExclude : Option (List FName)

/-- The `if commit:` tail of `EmbeddedDocumentForm.save`: walk up to a
document with a `save` method, run the instance's `save_files` attribute
if present, then save that document (an attribute error if the end of the
chain has no `save`). -/
def finishEmbeddedCommit (es0 : List Effect) (parent : ParentDoc) (inst : Instance)
    (commit : Bool) : List Effect × Except PyErr (ParentDoc × Instance) :=
  if commit then
    let top := parent.walkUp
    let esf := match inst.saveFilesFn with
      | some pd => save_files pd.cleaned_data inst pd.fields pd.exclude
      | none => []
    if top.hasSave then (es0 ++ esf ++ [.storageWrite], .ok (parent, inst))
    else (es0 ++ esf, .error .attributeError)
  else (es0, .ok (parent, inst))

/-- `EmbeddedDocumentForm.save(commit)`: raise on outstanding errors, a
missing parent document, or an unconfigured `embedded_field`; run
`save_instance` with `commit=False, construct=False`; then replace the
parent's single embedded value or append to its list of embedded values
(raising for unsupported parent-field kinds); finally, on `commit=True`,
persist through the nearest ancestor with a `save` method. -/
def EmbeddedDocumentForm_save (f : EmbForm) (commit : Bool) :
    List Effect × Except PyErr (ParentDoc × Instance) :=
  if !f.errors.isEmpty then ([], .error .validationError)
  else match f.parent_document with
  | none => ([], .error .parentMissingError)
  | some parent =>
    match f.embedded_field with
    | none => ([], .error .fieldUndefinedError)
    | some field_name =>
      if field_name.isEmpty then ([], .error .fieldUndefinedError)
      else
        let step := save_instance f.toForm f.instance_ f.optsFields f.optsExclude false false
        match step.2 with
        | .error e => (step.1, .error e)
        | .ok inst =>
          match parent.pfields.lookup field_name with
          | none => (step.1, .error .keyError)
          | some .embeddedDocumentFieldKind =>
            let parent2 := parent.updateSlot field_name (.single (some inst))
            finishEmbeddedCommit step.1 parent2 inst commit
          | some .listFieldKind =>
            match parent.slots field_name with
            | .listSlot l =>
              let parent2 := parent.updateSlot field_name (.listSlot (l ++ [inst]))
              finishEmbeddedCommit step.1 parent2 inst commit
            | _ => (step.1, .error .attributeError)
          | some .otherKind => (step.1, .error .unsupportedFieldError)

/-! ## Claim-support definitions -/

/-- An effect is a file-field commit (delete or replace), as opposed to the
database write. -/
def isFileCommit : Effect → Bool
  | .storageWrite => false
  | _ => true

/-- The ordering property asserted by the specification for a committing
save: the storage write strictly precedes every file-field commit in the
effect trace. -/
def writePrecedesCommits (tr : List Effect) : Prop :=
  ∀ i j : Fin tr.length, tr.get i = Effect.storageWrite →
    isFileCommit (tr.get j) = true → (i : Nat) < (j : Nat)

/-- Value of a decimal digit character (10 for non-digits). -/
def digitVal : Char → Nat
  | '0' => 0 | '1' => 1 | '2' => 2 | '3' => 3 | '4' => 4
  | '5' => 5 | '6' => 6 | '7' => 7 | '8' => 8 | '9' => 9
  | _ => 10

/-- Parse a decimal string back to a number (left inverse of `toDecimal`,
used to prove `toDecimal` injective). -/
def parseDec (cs : Str) : Nat :=
  cs.foldl (fun a c => a * 10 + digitVal c) 0

/-- The instance `EmbeddedDocumentForm.save` hands to the parent document:
`save_instance(commit=False, construct=False)` equips a save-less embedded
instance with the `save_files` closure, and wraps the `save` method of an
instance that has one. -/
def embeddedSavedInstance (f : EmbForm) : Instance :=
  if !f.instance_.hasSave then
    { f.instance_ with saveFilesFn := some ⟨f.cleaned_data, f.optsFields, f.optsExclude⟩ }
  else
    { f.instance_ with pendingSave := some ⟨f.cleaned_data, f.optsFields, f.optsExclude⟩ }

/-! ## Concrete test data -/

/-- Field name `photo`. -/
def nmPhoto : FName := ['p','h','o','t','o']

/-- Field name `title`. -/
def nmTitle : FName := ['t','i','t','l','e']

/-- A concrete uploaded file named `photo.jpg`. -/
def cexUpload : UploadedFile :=
  ⟨['p','h','o','t','o','.','j','p','g'], ['d','a','t','a'], ['i','m','g'], 0⟩

/-- An empty GridFS proxy. -/
def cexProxy : GridFSProxy := ⟨[], none⟩

/-- A document with one file field and one ordinary field. -/
def cexInstOne : Instance where
  _fields := [(nmTitle, .otherField), (nmPhoto, .fileField)]
  vals := fun _ => .vProxy cexProxy
  _file_field_data := none
  hasSave := true
  pendingSave := none
  saveFilesFn := none
  notUniqueOnSave := none

/-- A bound, error-free form over `cexInstOne` with an upload for the file
field. -/
def cexFormOne : Form where
  cleaned_data := [(nmTitle, .vData 7), (nmPhoto, .vUpload cexUpload)]
  errors := []

/-- Help text used by the datetime counterexample. -/
def dtHelp : Str := ['h','i','n','t']

/-- A datetime schema field carrying (non-empty) help text. -/
def dtField : SchemaField where
  kind := .datetimeField
  required := true
  verbose_name := none
  name := some ['w','h','e','n']
  help_text := some dtHelp
  choices := []
  default := .vNone
  max_length := none
  min_length := none
  min_value := none
  max_value := none
  regex := none
  ref_id_is_int := false
  list_inner_choices := []
  list_inner_is_reference := false

/-- A one-element integer choice set. -/
def intChoices : List (Str × Str) := [(['1'], ['o','n','e'])]

/-- A required integer schema field with declared choices. -/
def intChField : SchemaField where
  kind := .intField
  required := true
  verbose_name := none
  name := some ['r','a','n','k']
  help_text := none
  choices := intChoices
  default := .vNone
  max_length := none
  min_length := none
  min_value := none
  max_value := none
  regex := none
  ref_id_is_int := false
  list_inner_choices := []
  list_inner_is_reference := false

/-- A required string schema field with declared choices (witness input for
the amended blank-choice claim). -/
def strChField : SchemaField where
  kind := .stringField
  required := true
  verbose_name := none
  name := some ['k','i','n','d']
  help_text := none
  choices := intChoices
  default := .vNone
  max_length := none
  min_length := none
  min_value := none
  max_value := none
  regex := none
  ref_id_is_int := false
  list_inner_choices := []
  list_inner_is_reference := false

/-- A proxy holding a stored file, for the file-commit witness. -/
def w5Proxy : GridFSProxy :=
  ⟨[['o','l','d','.','j','p','g']], some ⟨['x'], ['t'], ['o','l','d','.','j','p','g']⟩⟩

/-- An upload whose stream is not at position 0, for the file-commit
witness (the commit must rewind before reading). -/
def w5Upload : UploadedFile :=
  ⟨['n','e','w','.','j','p','g'], ['b','y','t','e','s'], ['i','m','g'], 3⟩

/-- A save-less embedded instance with no fields. -/
def wEmbInst : Instance where
  _fields := []
  vals := fun _ => .vNone
  _file_field_data := none
  hasSave := false
  pendingSave := none
  saveFilesFn := none
  notUniqueOnSave := none

/-- Field name `comments`. -/
def nmComments : FName := ['c','o','m','m','e','n','t','s']

/-- A parent document with a list-of-embedded field `comments` holding one
embedded instance, and a `save` method. -/
def wParent : ParentDoc :=
  .mk [(nmComments, .listFieldKind)]
    (fun n => if n = nmComments then .listSlot [wEmbInst] else .otherSlot)
    true none

/-- An error-free embedded form attached to `wParent` targeting
`comments`. -/
def wEmbForm : EmbForm where
  cleaned_data := []
  errors := []
  instance_ := wEmbInst
  parent_document := some wParent
  embedded_field := some nmComments
  optsFields := none
  optsExclude := none

/-- The same embedded form with no parent document attached. -/
def wEmbFormNoParent : EmbForm :=
  { wEmbForm with parent_document := none }

/-- A document whose next database write violates a uniqueness
constraint. -/
def w8Inst : Instance :=
  { cexInstOne with notUniqueOnSave := some ['d','u','p'] }

/-- An error-free bound form over `w8Inst`. -/
def w8Form : DocForm where
  cleaned_data := [(nmTitle, .vData 7)]
  errors := []
  instance_ := w8Inst
  optsFields := none
  optsExclude := none

/-- Storage holding exactly `a.txt`, for the collision-resolver witness. -/
def w4fs : List Str := [['a','.','t','x','t']]

/-- The colliding desired filename `a.txt`. -/
def w4name : Str := ['a','.','t','x','t']

/-- An error-free bound form over `cexInstOne`, for the deferred-commit
witness. -/
def w9Form : DocForm where
  cleaned_data := [(nmTitle, .vData 7), (nmPhoto, .vUpload cexUpload)]
  errors := []
  instance_ := cexInstOne
  optsFields := none
  optsExclude := none

/-! ## Helper lemmas: traces of `save_files` contain only file commits -/

theorem file_field_effects_commit {v : Value} {n : FName} {e : Effect}
    (h : e ∈ file_field_effects v n) : isFileCommit e = true := by
  cases v <;> simp [file_field_effects] at h <;> simp [h, isFileCommit]

theorem process_ffd_commit {ffd : Option (List (FName × Value))} {e : Effect}
    (h : e ∈ process_file_field_data ffd) : isFileCommit e = true := by
  cases ffd with
  | none => simp [process_file_field_data] at h
  | some l =>
    simp only [process_file_field_data, List.mem_flatMap] at h
    obtain ⟨nv, _, hmem⟩ := h
    exact file_field_effects_commit hmem

theorem save_files_commit {cd : List (FName × Value)} {inst : Instance}
    {fields exclude : Option (List FName)} {e : Effect}
    (h : e ∈ save_files cd inst fields exclude) : isFileCommit e = true := by
  simp only [save_files, List.mem_flatMap] at h
  obtain ⟨nf, _, hmem⟩ := h
  by_cases h1 : inFieldsOpt fields nf.1 = true
  · by_cases h2 : excludedOpt exclude nf.1 = true
    · simp [h1, h2] at hmem
    · simp only [h1, h2, Bool.not_true, Bool.not_false, if_true, if_false,
        Bool.false_eq_true] at hmem
      rcases hk : nf.2 with _ | _ | _ | _ <;> rw [hk] at hmem
      · exact file_field_effects_commit hmem
      · rcases hv : inst.vals nf.1 <;> rw [hv] at hmem <;>
          first
          | exact process_ffd_commit hmem
          | simp at hmem
      · rcases hv : inst.vals nf.1 <;> rw [hv] at hmem <;>
          first
          | (simp only [List.mem_flatMap] at hmem
             obtain ⟨f2, _, hmem2⟩ := hmem
             exact process_ffd_commit hmem2)
          | simp at hmem
      · simp at hmem
  · simp [h1] at hmem

theorem save_files_no_write {cd : List (FName × Value)} {inst : Instance}
    {fields exclude : Option (List FName)}
    (h : Effect.storageWrite ∈ save_files cd inst fields exclude) : False := by
  have := save_files_commit h
  simp [isFileCommit] at this

/-- `construct_instance` only changes `vals` and `_file_field_data`. -/
theorem construct_preserves (form : Form) (inst : Instance)
    (fields exclude : Option (List FName)) :
    (construct_instance form inst fields exclude)._fields = inst._fields ∧
    (construct_instance form inst fields exclude).hasSave = inst.hasSave ∧
    (construct_instance form inst fields exclude).pendingSave = inst.pendingSave ∧
    (construct_instance form inst fields exclude).saveFilesFn = inst.saveFilesFn ∧
    (construct_instance form inst fields exclude).notUniqueOnSave = inst.notUniqueOnSave :=
  ⟨rfl, rfl, rfl, rfl, rfl⟩

/-! ## Claim C1 (save ordering of the storage write and file commits) -/

/-- Claim C1 as stated is false on the code: `save_instance` runs
`save_files()` (committing the uploaded `photo`) before
`instance.save(validate=False)`, so the storage write comes last, not
first.  Concretely, an error-free committing save of a document with one
file field produces the trace [file replace, storage write], which
violates the write-precedes-commits ordering. -/
theorem claim1_counterexample :
    cexFormOne.errors = [] ∧ cexInstOne.hasSave = true ∧
    (save_instance cexFormOne cexInstOne none none true true).1 =
      [Effect.fileReplace nmPhoto cexUpload, Effect.storageWrite] ∧
    ¬ writePrecedesCommits
        [Effect.fileReplace nmPhoto cexUpload, Effect.storageWrite] := by
  refine ⟨rfl, rfl, rfl, ?_⟩
  intro h
  have := h ⟨1, by decide⟩ ⟨0, by decide⟩ rfl rfl
  simp at this

/-- Amended claim C1: in every error-free committing form save on a
document whose write succeeds, the storage write is the final effect of
the save trace and every earlier effect is a file-field commit — i.e. the
file commits strictly precede the write (the reverse of the stated
order). -/
theorem claim1_amended (form : Form) (inst : Instance)
    (fields exclude : Option (List FName))
    (herr : form.errors = [])
    (hsave : inst.hasSave = true)
    (hnu : inst.notUniqueOnSave = none) :
    ∃ es, (save_instance form inst fields exclude true true).1 =
        es ++ [Effect.storageWrite] ∧
      ∀ e ∈ es, isFileCommit e = true := by
  have hsave' : (construct_instance form inst fields exclude).hasSave = true := hsave
  have hnu' : (construct_instance form inst fields exclude).notUniqueOnSave = none := hnu
  simp only [save_instance, herr, List.isEmpty_nil, Bool.not_true, Bool.false_eq_true,
    if_false, hsave', Bool.not_false, if_true]
  rcases hp : (construct_instance form inst fields exclude).pendingSave with _ | pd
  · refine ⟨save_files form.cleaned_data (construct_instance form inst fields exclude)
        fields exclude, ?_, fun e he => save_files_commit he⟩
    simp [Instance.callSave, hp, hnu']
  · refine ⟨save_files form.cleaned_data (construct_instance form inst fields exclude)
        fields exclude ++
      save_files pd.cleaned_data (construct_instance form inst fields exclude)
        pd.fields pd.exclude, ?_, ?_⟩
    · simp [Instance.callSave, hp, hnu']
    · intro e he
      rcases List.mem_append.mp he with h | h
      · exact save_files_commit h
      · exact save_files_commit h

/-- Witness for the amended claim C1 at the concrete one-file-field form. -/
theorem claim1_amended_witness :
    cexFormOne.errors = [] ∧ cexInstOne.hasSave = true ∧
    cexInstOne.notUniqueOnSave = none ∧
    ∃ es, (save_instance cexFormOne cexInstOne none none true true).1 =
        es ++ [Effect.storageWrite] ∧
      ∀ e ∈ es, isFileCommit e = true :=
  ⟨rfl, rfl, rfl, claim1_amended cexFormOne cexInstOne none none rfl rfl rfl⟩

/-! ## Claim C2 (generators carry over required, label, help text) -/

theorem generate_stringfield_attrs (field : SchemaField) :
    (generate_stringfield field).required = field.required ∧
    (generate_stringfield field).label = get_field_label field ∧
    (generate_stringfield field).help_text = djangoHelp field := by
  simp only [generate_stringfield]
  split_ifs <;> exact ⟨rfl, rfl, rfl⟩

theorem generate_intfield_attrs (field : SchemaField) :
    (generate_intfield field).required = field.required ∧
    (generate_intfield field).label = get_field_label field ∧
    (generate_intfield field).help_text = djangoHelp field := by
  simp only [generate_intfield]
  split_ifs <;> exact ⟨rfl, rfl, rfl⟩

theorem generate_booleanfield_attrs (field : SchemaField) :
    (generate_booleanfield field).required = field.required ∧
    (generate_booleanfield field).label = get_field_label field ∧
    (generate_booleanfield field).help_text = djangoHelp field := by
  simp only [generate_booleanfield]
  split_ifs <;> exact ⟨rfl, rfl, rfl⟩

theorem generate_listfield_attrs (field : SchemaField) (ff : FormField)
    (h : generate_listfield field = some ff) :
    ff.required = field.required ∧
    ff.label = get_field_label field ∧
    ff.help_text = djangoHelp field := by
  simp only [generate_listfield] at h
  split_ifs at h <;> cases h <;> exact ⟨rfl, rfl, rfl⟩

/-- Every registered generator carries over `required` and `label`; all of
them also carry over the help text, except the datetime generator, whose
`defaults` dict has no `help_text` entry, leaving the Django default
(the empty string). -/
theorem generate_attrs (field : SchemaField) (ff : FormField)
    (hgen : generate field = some ff) :
    ff.required = field.required ∧
    ff.label = get_field_label field ∧
    ff.help_text =
      (if field.kind = SchemaKind.datetimeField then [] else djangoHelp field) := by
  cases hk : field.kind <;> rw [generate, hk] at hgen
  case stringField =>
    cases hgen
    simpa using generate_stringfield_attrs field
  case emailField => cases hgen; exact ⟨rfl, rfl, rfl⟩
  case urlField => cases hgen; exact ⟨rfl, rfl, rfl⟩
  case intField =>
    cases hgen
    simpa using generate_intfield_attrs field
  case floatField => cases hgen; exact ⟨rfl, rfl, rfl⟩
  case decimalField => cases hgen; exact ⟨rfl, rfl, rfl⟩
  case booleanField =>
    cases hgen
    simpa using generate_booleanfield_attrs field
  case datetimeField => cases hgen; exact ⟨rfl, rfl, rfl⟩
  case referenceField => cases hgen; exact ⟨rfl, rfl, rfl⟩
  case listField =>
    simpa using generate_listfield_attrs field ff hgen
  case fileField => cases hgen; exact ⟨rfl, rfl, rfl⟩
  case imageField => cases hgen; exact ⟨rfl, rfl, rfl⟩

/-- Claim C2 as stated is false on the code: the datetime generator drops
the schema field's help text.  A datetime field with help text `hint`
generates a form field whose `help_text` is the empty string. -/
theorem claim2_counterexample :
    (generate dtField).map FormField.help_text = some [] ∧
    dtField.help_text = some dtHelp ∧
    dtHelp ≠ [] := by
  exact ⟨rfl, rfl, by decide⟩

/-- Amended claim C2: for every schema field whose kind has a registered
generator, `generate(field)` returns a form field whose `required` equals
the schema field's required-ness and whose `label` is the capitalized
verbose name (or, failing that, the capitalized name); the `help_text`
equals the schema field's help text (with falsy help text mapped to the
empty string) for every kind except datetime, whose generated field always
has empty help text. -/
theorem claim2_amended (field : SchemaField) (ff : FormField)
    (hgen : generate field = some ff) :
    ff.required = field.required ∧
    ff.label =
      (if truthyStr field.verbose_name then some (capfirst (field.verbose_name.getD []))
       else if truthyStr field.name then some (capfirst (field.name.getD []))
       else none) ∧
    (field.kind ≠ SchemaKind.datetimeField →
      ff.help_text =
        (if truthyStr field.help_text then field.help_text.getD [] else [])) ∧
    (field.kind = SchemaKind.datetimeField → ff.help_text = []) := by
  obtain ⟨h1, h2, h3⟩ := generate_attrs field ff hgen
  have hdj : djangoHelp field =
      (if truthyStr field.help_text then field.help_text.getD [] else []) := by
    rw [djangoHelp, get_field_help_text]
    split_ifs <;> rfl
  refine ⟨h1, h2, ?_, ?_⟩
  · intro hne
    rw [h3, if_neg hne, hdj]
  · intro heq
    rw [h3, if_pos heq]

/-- Witness for the amended claim C2 at the concrete datetime field. -/
theorem claim2_amended_witness :
    generate dtField = some (generate_datetimefield dtField) ∧
    ((generate_datetimefield dtField).required = dtField.required ∧
     (generate_datetimefield dtField).label =
       (if truthyStr dtField.verbose_name then some (capfirst (dtField.verbose_name.getD []))
        else if truthyStr dtField.name then some (capfirst (dtField.name.getD []))
        else none) ∧
     (dtField.kind ≠ SchemaKind.datetimeField →
       (generate_datetimefield dtField).help_text =
         (if truthyStr dtField.help_text then dtField.help_text.getD [] else [])) ∧
     (dtField.kind = SchemaKind.datetimeField →
       (generate_datetimefield dtField).help_text = [])) :=
  ⟨rfl, claim2_amended dtField (generate_datetimefield dtField) rfl⟩

/-! ## Claim C3 (leading blank choice for choice-bearing fields) -/

/-- Claim C3 as stated is false on the code: `generate_intfield` (and
`generate_booleanfield`) call `get_field_choices` without `include_blank`,
whose default is `True`, so a required integer choice field still gets the
leading blank choice. -/
theorem claim3_counterexample :
    intChField.required = true ∧
    (generate intChField).map FormField.choices =
      some (BLANK_CHOICE_DASH ++ intChoices) ∧
    BLANK_CHOICE_DASH ++ intChoices ≠ intChoices := by
  exact ⟨rfl, rfl, by decide⟩

/-- Amended claim C3: for string fields with choices (and no regex) the
leading blank choice is prepended exactly when the field is not required;
for integer and boolean fields with choices the blank choice is always
prepended, required or not. -/
theorem claim3_amended (field : SchemaField) (hch : field.choices ≠ []) :
    (field.kind = SchemaKind.stringField → field.regex = none →
      (generate field).map FormField.choices =
        some (if field.required then field.choices
              else BLANK_CHOICE_DASH ++ field.choices)) ∧
    ((field.kind = SchemaKind.intField ∨ field.kind = SchemaKind.booleanField) →
      (generate field).map FormField.choices =
        some (BLANK_CHOICE_DASH ++ field.choices)) := by
  have hche : field.choices.isEmpty = false := by
    cases hc : field.choices with
    | nil => exact absurd hc hch
    | cons a l => rfl
  constructor
  · intro hk hrx
    rw [generate, hk]
    simp only [Option.map_some, Option.some_inj]
    rw [generate_stringfield]
    simp only [hrx, Option.isSome_none, Bool.false_eq_true, if_false, hche,
      Bool.not_false, Bool.and_true, Bool.and_false, if_true]
    cases hr : field.required <;>
      simp [get_field_choices, hche, hr]
  · intro hk
    rcases hk with hk | hk <;> rw [generate, hk]
    · simp only [Option.map_some, Option.some_inj]
      rw [generate_intfield]
      simp [hche, get_field_choices]
    · simp only [Option.map_some, Option.some_inj]
      rw [generate_booleanfield]
      simp [hche, get_field_choices]

/-- Witness for the amended claim C3 at a required string choice field and
the required integer choice field. -/
theorem claim3_amended_witness :
    strChField.choices ≠ [] ∧
    ((strChField.kind = SchemaKind.stringField → strChField.regex = none →
      (generate strChField).map FormField.choices =
        some (if strChField.required then strChField.choices
              else BLANK_CHOICE_DASH ++ strChField.choices)) ∧
     ((strChField.kind = SchemaKind.intField ∨ strChField.kind = SchemaKind.booleanField) →
      (generate strChField).map FormField.choices =
        some (BLANK_CHOICE_DASH ++ strChField.choices))) :=
  ⟨by decide, claim3_amended strChField (by decide)⟩

/-! ## Claim C4 (filename collision resolution) -/

theorem digitVal_digitChar {d : Nat} (h : d < 10) : digitVal (digitChar d) = d := by
  interval_cases d <;> rfl

theorem parseDec_aux (fuel : Nat) : ∀ (n a : Nat), n ≤ fuel →
    List.foldl (fun a c => a * 10 + digitVal c) a (toDecimalAux fuel n) =
      a * 10 ^ (toDecimalAux fuel n).length + n := by
  induction fuel with
  | zero =>
    intro n a hn
    interval_cases n
    simp [toDecimalAux]
  | succ fuel ih =>
    intro n a hn
    match n with
    | 0 => simp [toDecimalAux]
    | m + 1 =>
      have hdiv : (m + 1) / 10 ≤ fuel := by
        have h1 : (m + 1) / 10 < m + 1 := Nat.div_lt_self (Nat.succ_pos m) (by omega)
        omega
      simp only [toDecimalAux, List.foldl_append, List.foldl_cons, List.foldl_nil,
        List.length_append, List.length_cons, List.length_nil]
      rw [ih ((m + 1) / 10) a hdiv]
      rw [digitVal_digitChar (Nat.mod_lt _ (by omega))]
      calc (a * 10 ^ (toDecimalAux fuel ((m + 1) / 10)).length + (m + 1) / 10) * 10 +
            (m + 1) % 10
          = a * (10 ^ (toDecimalAux fuel ((m + 1) / 10)).length * 10) +
            (10 * ((m + 1) / 10) + (m + 1) % 10) := by ring
        _ = a * 10 ^ ((toDecimalAux fuel ((m + 1) / 10)).length + 1) + (m + 1) := by
            rw [Nat.div_add_mod, ← pow_succ]

theorem parseDec_toDecimal (n : Nat) : parseDec (toDecimal n) = n := by
  match n with
  | 0 => rfl
  | m + 1 =>
    have h := parseDec_aux (m + 1) (m + 1) 0 (le_refl _)
    simpa [parseDec, toDecimal] using h

theorem toDecimal_inj {a b : Nat} (h : toDecimal a = toDecimal b) : a = b := by
  have ha := parseDec_toDecimal a
  have hb := parseDec_toDecimal b
  rw [← ha, ← hb, h]

theorem candidate_inj {root ext : Str} {a b : Nat}
    (h : candidate root ext a = candidate root ext b) : a = b := by
  unfold candidate at h
  have h1 := List.append_cancel_left h
  injection h1 with _ h2
  exact toDecimal_inj (List.append_cancel_right h2)

theorem candidate_ne_base (root ext : Str) (k : Nat) :
    candidate root ext k ≠ root ++ ext := by
  intro h
  have hlen := congrArg List.length h
  simp only [candidate, List.length_append, List.length_cons] at hlen
  omega

theorem splitext_append (p : Str) : (splitext p).1 ++ (splitext p).2 = p := by
  rw [splitext]
  cases h : rfindIdx p '.' with
  | none => simp
  | some d =>
    simp only
    split_ifs <;> simp [List.take_append_drop]

theorem uniqueAux_shape (fs : List Str) (root ext : Str) :
    ∀ (fuel k : Nat) (cur : Str),
      uniqueAux fs root ext cur k fuel = cur ∨
      ∃ j, k ≤ j ∧ uniqueAux fs root ext cur k fuel = candidate root ext j := by
  intro fuel
  induction fuel with
  | zero => intro k cur; exact Or.inl rfl
  | succ fuel ih =>
    intro k cur
    simp only [uniqueAux]
    split_ifs with h
    · rcases ih (k + 1) (candidate root ext k) with h1 | ⟨j, hj, h1⟩
      · exact Or.inr ⟨k, le_refl k, h1⟩
      · exact Or.inr ⟨j, by omega, h1⟩
    · exact Or.inl rfl

theorem uniqueAux_not_mem (fs : List Str) (root ext : Str) :
    ∀ (fuel k : Nat) (cur : Str) (seen : List Str),
      seen ⊆ fs → seen.Nodup → fs.length < fuel + seen.length →
      cur ∉ seen →
      (∀ j, k ≤ j → candidate root ext j ∉ seen) →
      (∀ j, k ≤ j → candidate root ext j ≠ cur) →
      uniqueAux fs root ext cur k fuel ∉ fs := by
  intro fuel
  induction fuel with
  | zero =>
    intro k cur seen hsub hnd hlen _ _ _
    exfalso
    have hle := (List.subperm_of_subset hnd hsub).length_le
    omega
  | succ fuel ih =>
    intro k cur seen hsub hnd hlen hcur hfut hcand
    simp only [uniqueAux]
    split_ifs with hmem
    · refine ih (k + 1) (candidate root ext k) (cur :: seen) ?_ ?_ ?_ ?_ ?_ ?_
      · intro x hx
        rcases List.mem_cons.mp hx with hx | hx
        · exact hx ▸ hmem
        · exact hsub hx
      · exact List.nodup_cons.mpr ⟨hcur, hnd⟩
      · simp only [List.length_cons]
        omega
      · intro hc
        rcases List.mem_cons.mp hc with hc | hc
        · exact hcand k (le_refl k) hc
        · exact hfut k (le_refl k) hc
      · intro j hj hc
        rcases List.mem_cons.mp hc with hc | hc
        · exact hcand j (by omega) hc
        · exact hfut j (by omega) hc
      · intro j hj hc
        have := candidate_inj hc
        omega
    · exact hmem

theorem get_unique_filename_spec (fs : List Str) (name : Str) :
    _get_unique_filename fs name ∉ fs ∧
    (_get_unique_filename fs name = name ∨
     ∃ k, 1 ≤ k ∧ _get_unique_filename fs name =
       candidate (splitext name).1 (splitext name).2 k) := by
  constructor
  · show uniqueAux fs (splitext name).1 (splitext name).2 name 1 (fs.length + 1) ∉ fs
    refine uniqueAux_not_mem fs (splitext name).1 (splitext name).2
      (fs.length + 1) 1 name [] ?_ List.nodup_nil ?_ (List.not_mem_nil name) ?_ ?_
    · exact fun x hx => absurd hx (List.not_mem_nil x)
    · omega
    · exact fun j _ => List.not_mem_nil _
    · intro j _
      have h := candidate_ne_base (splitext name).1 (splitext name).2 j
      rw [splitext_append] at h
      exact h
  · exact uniqueAux_shape fs (splitext name).1 (splitext name).2 (fs.length + 1) 1 name

/-- Claim C4: for a desired filename already present in storage, the
resolver returns a name absent from storage, distinct from the desired
name, of the form `root_k.ext` (the numeric suffix sits between the root
and the extension of the desired name, which is their concatenation, by
`splitext_append`); and re-running it with the previous result now stored
yields a name distinct from both. -/
theorem claim4 (fs : List Str) (name : Str) (h : name ∈ fs) :
    _get_unique_filename fs name ∉ fs ∧
    _get_unique_filename fs name ≠ name ∧
    (∃ k, 1 ≤ k ∧ _get_unique_filename fs name =
      candidate (splitext name).1 (splitext name).2 k) ∧
    (_get_unique_filename (_get_unique_filename fs name :: fs) name ∉
        _get_unique_filename fs name :: fs ∧
     _get_unique_filename (_get_unique_filename fs name :: fs) name ≠
        _get_unique_filename fs name ∧
     _get_unique_filename (_get_unique_filename fs name :: fs) name ≠ name ∧
     ∃ k2, 1 ≤ k2 ∧ _get_unique_filename (_get_unique_filename fs name :: fs) name =
       candidate (splitext name).1 (splitext name).2 k2) := by
  obtain ⟨hnot, hshape⟩ := get_unique_filename_spec fs name
  have hne : _get_unique_filename fs name ≠ name :=
    fun he => hnot (by rw [he]; exact h)
  have hsh : ∃ k, 1 ≤ k ∧ _get_unique_filename fs name =
      candidate (splitext name).1 (splitext name).2 k := by
    rcases hshape with h1 | h1
    · exact absurd h1 hne
    · exact h1
  obtain ⟨hnot2, hshape2⟩ := get_unique_filename_spec (_get_unique_filename fs name :: fs) name
  have hne2r : _get_unique_filename (_get_unique_filename fs name :: fs) name ≠
      _get_unique_filename fs name :=
    fun he => hnot2 (by rw [he]; exact List.mem_cons_self _ _)
  have hne2n : _get_unique_filename (_get_unique_filename fs name :: fs) name ≠ name :=
    fun he => hnot2 (by rw [he]; exact List.mem_cons_of_mem _ h)
  have hsh2 : ∃ k2, 1 ≤ k2 ∧ _get_unique_filename (_get_unique_filename fs name :: fs) name =
      candidate (splitext name).1 (splitext name).2 k2 := by
    rcases hshape2 with h1 | h1
    · exact absurd h1 hne2n
    · exact h1
  exact ⟨hnot, hne, hsh, hnot2, hne2r, hne2n, hsh2⟩

/-- Witness for claim C4: storage `[a.txt]` and desired name `a.txt`
(the resolver concretely returns `a_1.txt`, then `a_2.txt`). -/
theorem claim4_witness :
    w4name ∈ w4fs ∧
    (_get_unique_filename w4fs w4name ∉ w4fs ∧
     _get_unique_filename w4fs w4name ≠ w4name ∧
     (∃ k, 1 ≤ k ∧ _get_unique_filename w4fs w4name =
       candidate (splitext w4name).1 (splitext w4name).2 k) ∧
     (_get_unique_filename (_get_unique_filename w4fs w4name :: w4fs) w4name ∉
         _get_unique_filename w4fs w4name :: w4fs ∧
      _get_unique_filename (_get_unique_filename w4fs w4name :: w4fs) w4name ≠
         _get_unique_filename w4fs w4name ∧
      _get_unique_filename (_get_unique_filename w4fs w4name :: w4fs) w4name ≠ w4name ∧
      ∃ k2, 1 ≤ k2 ∧ _get_unique_filename (_get_unique_filename w4fs w4name :: w4fs) w4name =
        candidate (splitext w4name).1 (splitext w4name).2 k2)) :=
  ⟨by decide, claim4 w4fs w4name (by decide)⟩

/-! ## Claim C5 (file-field commit semantics) -/

theorem delete_stored (p : GridFSProxy) : (p.delete).stored = none := by
  rw [GridFSProxy.delete]
  cases hp : p.stored <;> simp [hp]

/-- Claim C5: committing a cleaned file-field value — the sentinel `False`
deletes the currently stored file; an uploaded payload replaces the stored
content with the upload's full content (reading from position 0 whatever
the stream position was) and its declared content type, under the
collision-resolved filename; any other value leaves the proxy unchanged. -/
theorem claim5 (v : Value) (p : GridFSProxy) :
    (v = Value.vFalse →
      save_file_field v p = p.delete ∧ (save_file_field v p).stored = none) ∧
    (∀ f, v = Value.vUpload f →
      (save_file_field v p).stored =
        some ⟨f.content, f.content_type, _get_unique_filename p.fsFiles f.name⟩) ∧
    ((v ≠ Value.vFalse ∧ ∀ f, v ≠ Value.vUpload f) → save_file_field v p = p) := by
  refine ⟨?_, ?_, ?_⟩
  · rintro rfl
    exact ⟨rfl, delete_stored p⟩
  · rintro f rfl
    simp [save_file_field, save_file, GridFSProxy.replace, GridFSProxy.put,
      UploadedFile.seek0, UploadedFile.read]
  · rintro ⟨h1, h2⟩
    cases v <;>
      first
      | rfl
      | exact absurd rfl h1
      | exact absurd rfl (h2 _)

/-- Witness for claim C5: replacing a stored file with an upload whose
stream position is 3 still stores the full content. -/
theorem claim5_witness :
    (save_file_field (Value.vUpload w5Upload) w5Proxy).stored =
      some ⟨w5Upload.content, w5Upload.content_type,
        _get_unique_filename w5Proxy.fsFiles w5Upload.name⟩ :=
  (claim5 (Value.vUpload w5Upload) w5Proxy).2.1 w5Upload rfl

/-! ## Claims C6 and C7 (embedded-form save) -/

theorem embedded_save_instance (f : EmbForm) (herr : f.errors = []) :
    save_instance f.toForm f.instance_ f.optsFields f.optsExclude false false =
      ([], Except.ok (embeddedSavedInstance f)) := by
  rw [save_instance, embeddedSavedInstance]
  cases hs : f.instance_.hasSave <;> simp [herr, hs]

theorem walkUp_updateSlot (p : ParentDoc) (n : FName) (s : ParentSlot) :
    ((p.updateSlot n s).walkUp).hasSave = (p.walkUp).hasSave := by
  cases p with
  | mk pf sl h pi =>
    cases h <;> cases pi <;>
      simp [ParentDoc.updateSlot, ParentDoc.walkUp, ParentDoc.hasSave]

theorem updateSlot_slots_self (p : ParentDoc) (n : FName) (s : ParentSlot) :
    (p.updateSlot n s).slots n = s := by
  cases p with
  | mk pf sl h pi => simp [ParentDoc.updateSlot, ParentDoc.slots]

/-- Claim C6: an error-free embedded-form save with an attached parent and
a configured target field replaces a single-embedded parent field with the
form's (saved) instance, and appends it to a list-of-embedded parent
field — the list grows by exactly one, its last element is the instance,
and the earlier elements are unchanged. -/
theorem claim6 (f : EmbForm) (parent : ParentDoc) (field_name : FName) (commit : Bool)
    (herr : f.errors = [])
    (hpar : f.parent_document = some parent)
    (hfn : f.embedded_field = some field_name)
    (hne : field_name.isEmpty = false)
    (hcommit : commit = true → (parent.walkUp).hasSave = true) :
    (parent.pfields.lookup field_name = some ParentFieldKind.embeddedDocumentFieldKind →
      ∃ es, EmbeddedDocumentForm_save f commit =
        (es, Except.ok
          (parent.updateSlot field_name (.single (some (embeddedSavedInstance f))),
           embeddedSavedInstance f)) ∧
        (parent.updateSlot field_name
            (.single (some (embeddedSavedInstance f)))).slots field_name =
          ParentSlot.single (some (embeddedSavedInstance f))) ∧
    (∀ l, parent.pfields.lookup field_name = some ParentFieldKind.listFieldKind →
      parent.slots field_name = ParentSlot.listSlot l →
      ∃ es p2, EmbeddedDocumentForm_save f commit =
        (es, Except.ok (p2, embeddedSavedInstance f)) ∧
        p2.slots field_name = ParentSlot.listSlot (l ++ [embeddedSavedInstance f]) ∧
        (l ++ [embeddedSavedInstance f]).length = l.length + 1 ∧
        (l ++ [embeddedSavedInstance f]).getLast? = some (embeddedSavedInstance f) ∧
        (l ++ [embeddedSavedInstance f]).take l.length = l) := by
  have hsave := embedded_save_instance f herr
  constructor
  · intro hk
    rw [EmbeddedDocumentForm_save]
    simp only [herr, List.isEmpty_nil, Bool.not_true, Bool.false_eq_true, if_false,
      hpar, hfn, hne, hsave, hk]
    rw [finishEmbeddedCommit]
    cases hc : commit with
    | false =>
      refine ⟨[], ?_, updateSlot_slots_self parent field_name _⟩
      simp
    | true =>
      have htop : ((parent.updateSlot field_name
          (.single (some (embeddedSavedInstance f)))).walkUp).hasSave = true := by
        rw [walkUp_updateSlot]
        exact hcommit hc
      refine ⟨(match (embeddedSavedInstance f).saveFilesFn with
        | some pd => save_files pd.cleaned_data (embeddedSavedInstance f) pd.fields pd.exclude
        | none => []) ++ [Effect.storageWrite], ?_,
        updateSlot_slots_self parent field_name _⟩
      simp [htop]
  · intro l hk hsl
    rw [EmbeddedDocumentForm_save]
    simp only [herr, List.isEmpty_nil, Bool.not_true, Bool.false_eq_true, if_false,
      hpar, hfn, hne, hsave, hk, hsl]
    rw [finishEmbeddedCommit]
    cases hc : commit with
    | false =>
      refine ⟨[], parent.updateSlot field_name
        (.listSlot (l ++ [embeddedSavedInstance f])), ?_,
        updateSlot_slots_self parent field_name _,
        by simp, List.getLast?_concat l, List.take_left l _⟩
      simp
    | true =>
      have htop : ((parent.updateSlot field_name
          (.listSlot (l ++ [embeddedSavedInstance f]))).walkUp).hasSave = true := by
        rw [walkUp_updateSlot]
        exact hcommit hc
      refine ⟨(match (embeddedSavedInstance f).saveFilesFn with
        | some pd => save_files pd.cleaned_data (embeddedSavedInstance f) pd.fields pd.exclude
        | none => []) ++ [Effect.storageWrite],
        parent.updateSlot field_name (.listSlot (l ++ [embeddedSavedInstance f])), ?_,
        updateSlot_slots_self parent field_name _,
        by simp, List.getLast?_concat l, List.take_left l _⟩
      simp [htop]

/-- Witness for claim C6 at an embedded form appending to the `comments`
list of a concrete parent document. -/
theorem claim6_witness :
    wEmbForm.errors = [] ∧ wEmbForm.parent_document = some wParent ∧
    wEmbForm.embedded_field = some nmComments ∧ nmComments.isEmpty = false ∧
    wParent.pfields.lookup nmComments = some ParentFieldKind.listFieldKind ∧
    wParent.slots nmComments = ParentSlot.listSlot [wEmbInst] ∧
    ∃ es p2, EmbeddedDocumentForm_save wEmbForm true =
        (es, Except.ok (p2, embeddedSavedInstance wEmbForm)) ∧
      p2.slots nmComments =
        ParentSlot.listSlot ([wEmbInst] ++ [embeddedSavedInstance wEmbForm]) ∧
      ([wEmbInst] ++ [embeddedSavedInstance wEmbForm]).length = [wEmbInst].length + 1 ∧
      ([wEmbInst] ++ [embeddedSavedInstance wEmbForm]).getLast? =
        some (embeddedSavedInstance wEmbForm) ∧
      ([wEmbInst] ++ [embeddedSavedInstance wEmbForm]).take [wEmbInst].length = [wEmbInst] :=
  ⟨rfl, rfl, rfl, by decide, by decide, rfl,
   (claim6 wEmbForm wParent nmComments true rfl rfl rfl (by decide)
     (fun _ => by decide)).2 [wEmbInst] (by decide) rfl⟩

/-- Claim C7: an embedded-form save with no parent attached, or no
configured target field (or an empty one), or a parent field of an
unsupported kind, raises the corresponding configuration error with an
empty effect trace — no storage write and no file commit happens. -/
theorem claim7 (f : EmbForm) (commit : Bool) (herr : f.errors = []) :
    (f.parent_document = none →
      EmbeddedDocumentForm_save f commit = ([], Except.error PyErr.parentMissingError)) ∧
    (∀ parent, f.parent_document = some parent → f.embedded_field = none →
      EmbeddedDocumentForm_save f commit = ([], Except.error PyErr.fieldUndefinedError)) ∧
    (∀ parent, f.parent_document = some parent → f.embedded_field = some [] →
      EmbeddedDocumentForm_save f commit = ([], Except.error PyErr.fieldUndefinedError)) ∧
    (∀ parent field_name, f.parent_document = some parent →
      f.embedded_field = some field_name → field_name.isEmpty = false →
      parent.pfields.lookup field_name = some ParentFieldKind.otherKind →
      EmbeddedDocumentForm_save f commit =
        ([], Except.error PyErr.unsupportedFieldError)) := by
  refine ⟨?_, ?_, ?_, ?_⟩
  · intro hpar
    rw [EmbeddedDocumentForm_save]
    simp [herr, hpar]
  · intro parent hpar hfn
    rw [EmbeddedDocumentForm_save]
    simp [herr, hpar, hfn]
  · intro parent hpar hfn
    rw [EmbeddedDocumentForm_save]
    simp [herr, hpar, hfn]
  · intro parent field_name hpar hfn hne hk
    have hsave := embedded_save_instance f herr
    rw [EmbeddedDocumentForm_save]
    simp [herr, hpar, hfn, hne, hsave, hk]

/-- Witness for claim C7 at the concrete embedded form with no parent
document attached. -/
theorem claim7_witness :
    wEmbFormNoParent.errors = [] ∧ wEmbFormNoParent.parent_document = none ∧
    EmbeddedDocumentForm_save wEmbFormNoParent true =
      ([], Except.error PyErr.parentMissingError) :=
  ⟨rfl, rfl, (claim7 wEmbFormNoParent true rfl).1 rfl⟩

/-! ## Claim C10 (construct_instance frame conditions) -/

theorem nodup_key_unique {l : List (FName × FieldKind)} (h : (l.map Prod.fst).Nodup)
    {n : FName} {b c : FieldKind} (h1 : (n, b) ∈ l) (h2 : (n, c) ∈ l) : b = c := by
  induction l with
  | nil => cases h1
  | cons hd tl ih =>
    rw [List.map_cons, List.nodup_cons] at h
    rcases List.mem_cons.mp h1 with e1 | m1 <;> rcases List.mem_cons.mp h2 with e2 | m2
    · have he := e1.trans e2.symm
      injection he with _ hbc
    · exact absurd (List.mem_map_of_mem Prod.fst m2)
        (by rw [← e1] at h; exact h.1)
    · exact absurd (List.mem_map_of_mem Prod.fst m1)
        (by rw [← e2] at h; exact h.1)
    · exact ih h.2 m1 m2

theorem foldl_assignStep_skip (cd : List (FName × Value))
    (fields exclude : Option (List FName)) (l : List (FName × FieldKind)) (n : FName) :
    ∀ (acc : FName → Value),
      (∀ k, (n, k) ∈ l →
        ¬(keepField cd fields exclude n = true ∧ k ≠ FieldKind.fileField)) →
      l.foldl (assignStep cd fields exclude) acc n = acc n := by
  induction l with
  | nil => intro acc _; rfl
  | cons hd tl ih =>
    intro acc h
    rw [List.foldl_cons, ih]
    · rw [assignStep]
      split_ifs with hc
      · simp only [Bool.and_eq_true, decide_eq_true_eq] at hc
        obtain ⟨hkeep, hfile⟩ := hc
        by_cases he : n = hd.1
        · exfalso
          refine h hd.2 ?_ ⟨by rw [he]; exact hkeep, hfile⟩
          rw [he]
          exact List.mem_cons_self hd tl
        · simp [he]
      · rfl
    · intro k hk
      exact h k (List.mem_cons_of_mem hd hk)

theorem foldl_assignStep_mem (cd : List (FName × Value))
    (fields exclude : Option (List FName)) (l : List (FName × FieldKind))
    (n : FName) (k : FieldKind) (v : Value)
    (hkeep : keepField cd fields exclude n = true)
    (hfile : k ≠ FieldKind.fileField)
    (hcl : cd.lookup n = some v) :
    ∀ (acc : FName → Value), (l.map Prod.fst).Nodup → (n, k) ∈ l →
      l.foldl (assignStep cd fields exclude) acc n = v := by
  induction l with
  | nil => intro acc _ hmem; cases hmem
  | cons hd tl ih =>
    intro acc hnd hmem
    rw [List.map_cons, List.nodup_cons] at hnd
    rcases List.mem_cons.mp hmem with he | hm
    · rw [List.foldl_cons]
      rw [foldl_assignStep_skip]
      · rw [assignStep, ← he]
        rw [if_pos]
        · simp [hcl]
        · simp [hkeep, hfile]
      · intro k2 hk2 _
        have hn : n ∈ List.map Prod.fst tl := List.mem_map.mpr ⟨(n, k2), hk2, rfl⟩
        rw [← he] at hnd
        exact hnd.1 hn
    · rw [List.foldl_cons]
      exact ih _ hnd.2 hm

theorem construct_vals_assigned (form : Form) (inst : Instance)
    (fields exclude : Option (List FName))
    (hnd : (inst._fields.map Prod.fst).Nodup)
    {n : FName} {k : FieldKind} {v : Value}
    (hmem : (n, k) ∈ inst._fields)
    (hcl : form.cleaned_data.lookup n = some v)
    (hin : inFieldsOpt fields n = true)
    (hex : excludedOpt exclude n = false)
    (hfile : k ≠ FieldKind.fileField) :
    (construct_instance form inst fields exclude).vals n = v := by
  have hkeep : keepField form.cleaned_data fields exclude n = true := by
    simp [keepField, hcl, hin, hex]
  exact foldl_assignStep_mem form.cleaned_data fields exclude inst._fields n k v
    hkeep hfile hcl inst.vals hnd hmem

theorem construct_vals_skip (form : Form) (inst : Instance)
    (fields exclude : Option (List FName)) {n : FName}
    (h : ∀ k, (n, k) ∈ inst._fields →
      ¬(keepField form.cleaned_data fields exclude n = true ∧ k ≠ FieldKind.fileField)) :
    (construct_instance form inst fields exclude).vals n = inst.vals n :=
  foldl_assignStep_skip form.cleaned_data fields exclude inst._fields n inst.vals h

/-- Claim C10: `construct_instance` assigns cleaned values exactly to the
non-file fields present in cleaned data and surviving the include/exclude
filters; every other name keeps its prior value; a file field passing the
guards keeps its value and instead lands (with its cleaned value) in the
`_file_field_data` list; if no file field passes the guards,
`_file_field_data` is left untouched. -/
theorem claim10 (form : Form) (inst : Instance) (fields exclude : Option (List FName))
    (hnd : (inst._fields.map Prod.fst).Nodup) :
    (∀ n k v, (n, k) ∈ inst._fields → form.cleaned_data.lookup n = some v →
      inFieldsOpt fields n = true → excludedOpt exclude n = false →
      k ≠ FieldKind.fileField →
      (construct_instance form inst fields exclude).vals n = v) ∧
    (∀ n, (∀ k, (n, k) ∈ inst._fields →
        ¬(keepField form.cleaned_data fields exclude n = true ∧ k ≠ FieldKind.fileField)) →
      (construct_instance form inst fields exclude).vals n = inst.vals n) ∧
    (∀ n v, (n, FieldKind.fileField) ∈ inst._fields →
      form.cleaned_data.lookup n = some v →
      inFieldsOpt fields n = true → excludedOpt exclude n = false →
      (construct_instance form inst fields exclude).vals n = inst.vals n ∧
      ∃ ffd, (construct_instance form inst fields exclude)._file_field_data = some ffd ∧
        (n, v) ∈ ffd) ∧
    ((inst._fields.filter (fun nf => keepField form.cleaned_data fields exclude nf.1 &&
        decide (nf.2 = FieldKind.fileField))).isEmpty = true →
      (construct_instance form inst fields exclude)._file_field_data =
        inst._file_field_data) := by
  refine ⟨?_, ?_, ?_, ?_⟩
  · intro n k v hmem hcl hin hex hfile
    exact construct_vals_assigned form inst fields exclude hnd hmem hcl hin hex hfile
  · intro n h
    exact construct_vals_skip form inst fields exclude h
  · intro n v hmem hcl hin hex
    have hkeep : keepField form.cleaned_data fields exclude n = true := by
      simp [keepField, hcl, hin, hex]
    constructor
    · refine construct_vals_skip form inst fields exclude ?_
      intro k hk hcon
      have hkf := nodup_key_unique hnd hk hmem
      exact hcon.2 hkf
    · have hmf : (n, FieldKind.fileField) ∈ inst._fields.filter
          (fun nf => keepField form.cleaned_data fields exclude nf.1 &&
            decide (nf.2 = FieldKind.fileField)) := by
        refine List.mem_filter.mpr ⟨hmem, ?_⟩
        simp [hkeep]
      refine ⟨(inst._fields.filter (fun nf => keepField form.cleaned_data fields exclude nf.1 &&
          decide (nf.2 = FieldKind.fileField))).map
            (fun nf => (nf.1, (form.cleaned_data.lookup nf.1).getD Value.vNone)), ?_, ?_⟩
      · show (if (inst._fields.filter _).isEmpty then inst._file_field_data else _) = _
        rw [if_neg]
        intro hemp
        rw [List.isEmpty_iff] at hemp
        rw [hemp] at hmf
        cases hmf
      · refine List.mem_map.mpr ⟨(n, FieldKind.fileField), hmf, ?_⟩
        simp [hcl]
  · intro hemp
    show (if (inst._fields.filter _).isEmpty then inst._file_field_data else _) = _
    rw [if_pos hemp]

/-- Witness for claim C10: the cleaned `title` value is assigned on the
constructed instance. -/
theorem claim10_witness :
    (cexInstOne._fields.map Prod.fst).Nodup ∧
    (nmTitle, FieldKind.otherField) ∈ cexInstOne._fields ∧
    cexFormOne.cleaned_data.lookup nmTitle = some (Value.vData 7) ∧
    (construct_instance cexFormOne cexInstOne none none).vals nmTitle = Value.vData 7 :=
  ⟨by decide, by decide, rfl,
   (claim10 cexFormOne cexInstOne none none (by decide)).1 nmTitle FieldKind.otherField
     (Value.vData 7) (by decide) rfl rfl rfl (by decide)⟩

/-! ## Claim C8 (uniqueness failure becomes a non-field error and None) -/

theorem extendErrors_nil (k : FName) (msgs : List Str) :
    extendErrors [] k msgs = [(k, msgs)] := by
  simp [extendErrors]

theorem update_errors_nonfield (errors : List (FName × List Str))
    (cd : List (FName × Value)) (m : Str) :
    _update_errors errors cd [(NON_FIELD_ERRORS, [m])] =
      (extendErrors errors NON_FIELD_ERRORS [m], cd) := by
  rw [_update_errors]
  simp [List.lookup]

/-- Claim C8: an error-free committing form save on a document whose write
raises a uniqueness-constraint violation is caught, recorded under the
non-field key of the form's error mapping, and `save` returns no instance;
the trace holds no storage write, and `MongoFormMixin.form_valid` on that
form takes the form-invalid path. -/
theorem claim8 (f : DocForm) (m : Str)
    (herr : f.errors = [])
    (hsave : f.instance_.hasSave = true)
    (hnu : f.instance_.notUniqueOnSave = some m) :
    ∃ es f2, BaseDocumentForm_save f true = (es, Except.ok (f2, none)) ∧
      f2.errors = [(NON_FIELD_ERRORS, [m])] ∧
      Effect.storageWrite ∉ es ∧
      MongoFormMixin_form_valid f = (es, Except.ok ViewOutcome.formInvalid) := by
  have herr' : f.toForm.errors = [] := herr
  have hsave2 : (construct_instance f.toForm f.instance_ f.optsFields f.optsExclude).hasSave
      = true := hsave
  have hnu2 : (construct_instance f.toForm f.instance_ f.optsFields f.optsExclude).notUniqueOnSave
      = some m := hnu
  obtain ⟨es1, hsi, hnw⟩ :
      ∃ es1, save_instance f.toForm f.instance_ f.optsFields f.optsExclude true true =
        (es1, Except.error (PyErr.notUniqueError m)) ∧
        Effect.storageWrite ∉ es1 := by
    rcases hp : (construct_instance f.toForm f.instance_ f.optsFields f.optsExclude).pendingSave
      with _ | pd
    · refine ⟨save_files f.toForm.cleaned_data
        (construct_instance f.toForm f.instance_ f.optsFields f.optsExclude)
        f.optsFields f.optsExclude, ?_, fun hw => save_files_no_write hw⟩
      rw [save_instance]
      simp [herr', hsave2, Instance.callSave, hp, hnu2]
    · refine ⟨save_files f.toForm.cleaned_data
          (construct_instance f.toForm f.instance_ f.optsFields f.optsExclude)
          f.optsFields f.optsExclude ++
        save_files pd.cleaned_data
          (construct_instance f.toForm f.instance_ f.optsFields f.optsExclude)
          pd.fields pd.exclude, ?_, fun hw => ?_⟩
      · rw [save_instance]
        simp [herr', hsave2, Instance.callSave, hp, hnu2]
      · rcases List.mem_append.mp hw with h | h
        · exact save_files_no_write h
        · exact save_files_no_write h
  have hbs : BaseDocumentForm_save f true =
      (es1,
       Except.ok
         ({ f with
             errors := extendErrors f.errors NON_FIELD_ERRORS [m],
             cleaned_data := f.cleaned_data },
          none)) := by
    rw [BaseDocumentForm_save]
    simp [hsi, update_errors_nonfield]
  refine ⟨es1, _, hbs, ?_, hnw, ?_⟩
  · show extendErrors f.errors NON_FIELD_ERRORS [m] = [(NON_FIELD_ERRORS, [m])]
    rw [herr, extendErrors_nil]
  · rw [MongoFormMixin_form_valid, hbs]

/-- Witness for claim C8 at a concrete form whose document write violates
a uniqueness constraint. -/
theorem claim8_witness :
    w8Form.errors = [] ∧ w8Form.instance_.hasSave = true ∧
    w8Form.instance_.notUniqueOnSave = some ['d','u','p'] ∧
    ∃ es f2, BaseDocumentForm_save w8Form true = (es, Except.ok (f2, none)) ∧
      f2.errors = [(NON_FIELD_ERRORS, [['d','u','p']])] ∧
      Effect.storageWrite ∉ es ∧
      MongoFormMixin_form_valid w8Form = (es, Except.ok ViewOutcome.formInvalid) :=
  ⟨rfl, rfl, rfl, claim8 w8Form ['d','u','p'] rfl rfl rfl⟩

/-! ## Claim C9 (commit=False defers the write and the file commits) -/

/-- Claim C9: an error-free `save(commit=False)` on a document returns the
constructed instance with an empty effect trace — no write and no file
commit has happened; the instance's fields carry the cleaned values; the
next explicit `instance.save()` call commits the deferred file fields
immediately before the storage write, and only that once: the save after
it writes without re-committing. -/
theorem claim9 (f : DocForm)
    (hnd : (f.instance_._fields.map Prod.fst).Nodup)
    (herr : f.errors = [])
    (hsave : f.instance_.hasSave = true)
    (hnu : f.instance_.notUniqueOnSave = none) :
    ∃ inst2,
      BaseDocumentForm_save f false = ([], Except.ok (f, some inst2)) ∧
      (∀ n k v, (n, k) ∈ f.instance_._fields → f.cleaned_data.lookup n = some v →
        inFieldsOpt f.optsFields n = true → excludedOpt f.optsExclude n = false →
        k ≠ FieldKind.fileField → inst2.vals n = v) ∧
      inst2.callSave.1 =
        save_files f.cleaned_data inst2 f.optsFields f.optsExclude ++
          [Effect.storageWrite] ∧
      (∀ e ∈ save_files f.cleaned_data inst2 f.optsFields f.optsExclude,
        isFileCommit e = true) ∧
      (∃ inst3, inst2.callSave.2 = Except.ok inst3 ∧ inst3.pendingSave = none ∧
        inst3.callSave = ([Effect.storageWrite], Except.ok inst3) ∧
        inst3.vals = inst2.vals) := by
  have herr' : f.toForm.errors = [] := herr
  have hsave2 : (construct_instance f.toForm f.instance_ f.optsFields f.optsExclude).hasSave
      = true := hsave
  have hnu2 : (construct_instance f.toForm f.instance_ f.optsFields f.optsExclude).notUniqueOnSave
      = none := hnu
  refine ⟨{ construct_instance f.toForm f.instance_ f.optsFields f.optsExclude with
    pendingSave := some ⟨f.toForm.cleaned_data, f.optsFields, f.optsExclude⟩ },
    ?_, ?_, ?_, fun e he => save_files_commit he, ?_⟩
  · rw [BaseDocumentForm_save, save_instance]
    simp [herr', hsave2, Except.map]
  · intro n k v hmem hcl hin hex hfile
    exact construct_vals_assigned f.toForm f.instance_ f.optsFields f.optsExclude
      hnd hmem hcl hin hex hfile
  · simp [Instance.callSave, hnu2]
  · refine ⟨{ construct_instance f.toForm f.instance_ f.optsFields f.optsExclude with
      pendingSave := none }, ?_, rfl, ?_, rfl⟩
    · simp [Instance.callSave, hnu2]
    · simp [Instance.callSave, hnu2]

/-- Witness for claim C9 at a concrete error-free form over a document
with an ordinary field and a file field. -/
theorem claim9_witness :
    (w9Form.instance_._fields.map Prod.fst).Nodup ∧
    w9Form.errors = [] ∧ w9Form.instance_.hasSave = true ∧
    w9Form.instance_.notUniqueOnSave = none ∧
    ∃ inst2,
      BaseDocumentForm_save w9Form false = ([], Except.ok (w9Form, some inst2)) ∧
      (∀ n k v, (n, k) ∈ w9Form.instance_._fields →
        w9Form.cleaned_data.lookup n = some v →
        inFieldsOpt w9Form.optsFields n = true →
        excludedOpt w9Form.optsExclude n = false →
        k ≠ FieldKind.fileField → inst2.vals n = v) ∧
      inst2.callSave.1 =
        save_files w9Form.cleaned_data inst2 w9Form.optsFields w9Form.optsExclude ++
          [Effect.storageWrite] ∧
      (∀ e ∈ save_files w9Form.cleaned_data inst2 w9Form.optsFields w9Form.optsExclude,
        isFileCommit e = true) ∧
      (∃ inst3, inst2.callSave.2 = Except.ok inst3 ∧ inst3.pendingSave = none ∧
        inst3.callSave = ([Effect.storageWrite], Except.ok inst3) ∧
        inst3.vals = inst2.vals) :=
  ⟨by decide, rfl, rfl, rfl, claim9 w9Form (by decide) rfl rfl rfl⟩

end Mongotools
